import Mathlib

/-!
Verification of the scheduled-reports plugin core (Go sources) against its
natural-language specification.  The Go code is shallowly embedded: pure
functions become Lean functions, the SQLite tables become lists of rows,
the scheduler's in-memory caches become association lists inside an explicit
state record, and collaborator outcomes (rendering, SMTP delivery, the cron
library) are passed in as explicit arguments or modelled over the subset of
behaviour the repository exercises.  Machine integers are modelled as `Nat`
(none of the verified paths can overflow an int64 on the inputs considered).
-/

namespace ScheduledReports

/-! ## Data model (`pkg/model/models.go`) -/

/-- `model.Recipients`: email recipient lists. -/
structure Recipients where
  toAddrs : List String
  ccAddrs : List String
  bccAddrs : List String
  deriving Repr, DecidableEq

/-- `model.SMTPConfig` (fields relevant to the verified paths). -/
structure SMTPConfig where
  host : String
  port : Nat
  username : String
  password : String
  fromAddr : String
  useTLS : Bool
  skipTLSVerify : Bool
  deriving Repr, DecidableEq

/-- `model.RendererConfig` (fields relevant to the verified paths). -/
structure RendererConfig where
  backend : String
  grafanaURL : String
  timeoutMS : Nat
  viewportWidth : Nat
  viewportHeight : Nat
  deriving Repr, DecidableEq

/-- `model.Limits`. -/
structure Limits where
  maxRecipients : Nat
  maxAttachmentSizeMB : Nat
  maxConcurrentRenders : Nat
  retentionDays : Nat
  allowedDomains : List String
  deriving Repr, DecidableEq

/-- `model.Settings`: per-tenant configuration row. -/
structure Settings where
  id : Nat
  orgID : Nat
  smtpConfig : Option SMTPConfig
  rendererConfig : RendererConfig
  limits : Limits
  deriving Repr, DecidableEq

/-! ## Recipient-domain validation (`pkg/model/validation.go`)

The Go code works on `string` values through `strings.Split`, `strings.ToLower`,
`strings.TrimSpace`, `strings.HasPrefix` and `strings.HasSuffix`.  Those library
functions are embedded here as structurally recursive functions over the
character list of the string (`String.data`), so that every concrete instance
evaluates inside the Lean kernel.  Only the ASCII range matters for the
inputs the repository handles; `lowerChar` mirrors `unicode.ToLower` on it. -/

/-- `strings.Split` with a one-character separator (the only use in the source
is `strings.Split(email, "@")`). -/
def goSplit (sep : Char) : List Char → List (List Char)
  | [] => [[]]
  | c :: cs =>
    let rest := goSplit sep cs
    if c == sep then
      [] :: rest
    else
      match rest with
      | [] => [[c]]
      | r :: rs => (c :: r) :: rs

/-- ASCII decision of `unicode.IsSpace` for the characters that can occur in
the repository's configuration strings. -/
def isSpaceChar (c : Char) : Bool :=
  c == ' ' || c == '\t' || c == '\n' || c == '\r'

/-- `strings.TrimSpace` on the character list. -/
def trimChars (l : List Char) : List Char :=
  ((l.dropWhile isSpaceChar).reverse.dropWhile isSpaceChar).reverse

/-- `unicode.ToLower` restricted to ASCII. -/
def lowerChar (c : Char) : Char :=
  if 'A' ≤ c && c ≤ 'Z' then Char.ofNat (c.toNat + 32) else c

/-- `strings.ToLower` on the character list. -/
def lowerChars (l : List Char) : List Char := l.map lowerChar

/-- `model.extractDomain`: split the address on `@`; exactly two parts are
required, and the domain part is trimmed and lower-cased.  The empty list
plays the role of Go's `""` failure marker. -/
def extractDomain (email : List Char) : List Char :=
  let parts := goSplit '@' email
  if parts.length == 2 then
    lowerChars (trimChars (parts.getD 1 []))
  else
    []

/-- `model.isDomainAllowed`: exact match, or wildcard `*.base` matching the
base domain itself or any dot-separated subdomain; comparisons lower-cased
and whitelist entries trimmed. -/
def isDomainAllowed (domain : List Char) (allowedDomains : List String) : Bool :=
  let d := lowerChars domain
  allowedDomains.any fun allowed0 =>
    let allowed := lowerChars (trimChars allowed0.data)
    if d == allowed then
      true
    else
      match allowed with
      | '*' :: '.' :: baseDomain =>
        d == baseDomain || ('.' :: baseDomain).isSuffixOf d
      | _ => false

/-- The per-email loop body of `model.ValidateRecipientDomains`: blank entries
are skipped, a malformed address or a non-whitelisted domain aborts with an
error. -/
def validateEmailList (allowedDomains : List String) : List String → Except String Unit
  | [] => .ok ()
  | email0 :: rest =>
    let email := trimChars email0.data
    if email == [] then
      validateEmailList allowedDomains rest
    else
      let domain := extractDomain email
      if domain == [] then
        .error ("invalid email address format: " ++ String.mk email)
      else if !isDomainAllowed domain allowedDomains then
        .error ("email domain " ++ String.mk domain ++ " is not allowed (email: " ++
          String.mk email ++ ")")
      else
        validateEmailList allowedDomains rest

/-- `model.ValidateRecipientDomains`: empty whitelist allows everything;
otherwise every address in `to ++ cc ++ bcc` is checked in order. -/
def ValidateRecipientDomains (recipients : Recipients) (allowedDomains : List String) :
    Except String Unit :=
  if allowedDomains.length == 0 then
    .ok ()
  else
    validateEmailList allowedDomains (recipients.toAddrs ++ recipients.ccAddrs ++ recipients.bccAddrs)

/-! ## Schedule and Run rows (`pkg/model/models.go`)

Timestamps are seconds since the Unix epoch (`Nat`); nullable columns are
`Option`.  The binary artifact is a byte list; the hex checksum string is
modelled as the `Nat` digest produced by `sha256Model` below. -/

/-- `model.Variable` (name/value pair of a dashboard-variable override). -/
structure Variable where
  name : String
  value : String
  deriving Repr, DecidableEq

/-- `model.Schedule`: one persisted schedule row. -/
structure Schedule where
  id : Nat
  orgID : Nat
  name : String
  dashboardUID : String
  dashboardTitle : String
  panelIDs : List Nat
  rangeFrom : String
  rangeTo : String
  intervalType : String
  cronExpr : String
  timezone : String
  variableOverrides : List Variable
  recipients : Recipients
  emailSubject : String
  emailBody : String
  templateID : Option Nat
  enabled : Bool
  lastRunAt : Option Nat
  nextRunAt : Option Nat
  ownerUserID : Nat
  createdAt : Nat
  updatedAt : Nat
  deriving Repr, DecidableEq

/-- `model.Run`: one persisted run row. -/
structure Run where
  id : Nat
  scheduleID : Nat
  orgID : Nat
  startedAt : Nat
  finishedAt : Option Nat
  status : String
  emailSent : Bool
  emailError : String
  errorText : String
  artifactPath : String
  artifactData : List Nat
  renderedPages : Nat
  bytes : Nat
  checksum : Nat
  createdAt : Nat
  deriving Repr, DecidableEq

/-! ## Sorting helper

`ORDER BY` clauses are embedded as an insertion sort over a Boolean
less-or-equal test (SQLite's sort algorithm is unspecified; only the
sortedness and permutation properties matter). -/

/-- Insert `x` in front of the first element it is `le`-below. -/
def insertByLe (le : α → α → Bool) (x : α) : List α → List α
  | [] => [x]
  | y :: ys => if le x y then x :: y :: ys else y :: insertByLe le x ys

/-- Insertion sort by a Boolean less-or-equal test. -/
def sortByLe (le : α → α → Bool) : List α → List α
  | [] => []
  | x :: xs => insertByLe le x (sortByLe le xs)

/-! ## Store (`pkg/store/store.go`)

Tables are lists of rows; the SQL statements become list transformations. -/

/-- The `SET` list of `updateScheduleDirect`'s `UPDATE schedules` statement:
every listed column is overwritten from the submitted value, `updated_at` is
set to the write time; `id`, `org_id`, `owner_user_id` and `created_at` are
not in the `SET` list and keep the stored value. -/
def overwriteScheduleRow (now : Nat) (r s : Schedule) : Schedule :=
  { r with
    name := s.name, dashboardUID := s.dashboardUID, dashboardTitle := s.dashboardTitle,
    panelIDs := s.panelIDs, rangeFrom := s.rangeFrom, rangeTo := s.rangeTo,
    intervalType := s.intervalType, cronExpr := s.cronExpr, timezone := s.timezone,
    variableOverrides := s.variableOverrides, recipients := s.recipients, emailSubject := s.emailSubject,
    emailBody := s.emailBody, templateID := s.templateID, enabled := s.enabled,
    lastRunAt := s.lastRunAt, nextRunAt := s.nextRunAt, updatedAt := now }

/-- `store.updateScheduleDirect`: `UPDATE schedules SET ... WHERE id = ? AND
org_id = ?`.  `db.Exec` only fails on an engine error; a statement that
matches zero rows succeeds, so the function returns `ok` whether or not the
row exists. -/
def updateScheduleDirect (now : Nat) (db : List Schedule) (s : Schedule) :
    Except String (List Schedule) :=
  .ok (db.map fun r => if r.id == s.id && r.orgID == s.orgID then overwriteScheduleRow now r s else r)

/-- `next_run_at IS NULL OR datetime(next_run_at) <= datetime(now)`. -/
def isDue (now : Nat) (s : Schedule) : Bool :=
  match s.nextRunAt with
  | none => true
  | some t => Nat.ble t now

/-- `ORDER BY next_run_at ASC` key comparison; SQLite sorts `NULL` first in
ascending order. -/
def dueKeyLe (a b : Option Nat) : Bool :=
  match a, b with
  | none, _ => true
  | some _, none => false
  | some x, some y => Nat.ble x y

/-- `store.GetDueSchedules`: all enabled schedules whose `next_run_at` is null
or at most the current UTC time, ordered by `next_run_at` ascending. -/
def GetDueSchedules (now : Nat) (db : List Schedule) : List Schedule :=
  sortByLe (fun a b => dueKeyLe a.nextRunAt b.nextRunAt)
    (db.filter fun s => s.enabled && isDue now s)

/-- `store.ListRuns`: rows of the given schedule and org, `ORDER BY started_at
DESC LIMIT 50`; the `SELECT` list omits `artifact_data`, so the scanned rows
carry an empty artifact payload. -/
def ListRuns (orgID scheduleID : Nat) (db : List Run) : List Run :=
  ((sortByLe (fun a b => Nat.ble b.startedAt a.startedAt)
      (db.filter fun r => r.scheduleID == scheduleID && r.orgID == orgID)).take 50).map
    fun r => { r with artifactData := [] }

/-- `store.GetSettings`: `SELECT ... FROM settings WHERE org_id = ?`; a missing
row yields `nil` settings with no error. -/
def GetSettings (db : List Settings) (orgID : Nat) : Option Settings :=
  db.find? fun s => s.orgID == orgID

/-- `store.upsertSettingsDirect`: `INSERT` when no row for the org exists,
otherwise `UPDATE settings SET smtp_config, renderer_config, limits WHERE
org_id = ?`. -/
def upsertSettingsDirect (db : List Settings) (s : Settings) : List Settings :=
  match GetSettings db s.orgID with
  | none => db ++ [s]
  | some _ =>
    db.map fun r =>
      if r.orgID == s.orgID then
        { r with
          smtpConfig := s.smtpConfig, rendererConfig := s.rendererConfig,
          limits := s.limits }
      else r

/-! ## Write queue (`pkg/store/write_queue.go`)

The buffered channel of capacity 100 becomes a list-valued buffer, context
cancellation a Boolean flag, and the single writer goroutine's shutdown drain
a structural recursion over the buffered operations.  The payload of an
operation is abstracted to an identifying number; `executed` records, in
order, the operations the writer has dispatched to the `*Direct` functions. -/

/-- `writeOpType`: the six mutating store operations that go through the
queue (`CreateSchedule`, `UpdateSchedule`, `DeleteSchedule`, `CreateRun`,
`UpdateRun`, `UpsertSettings`). -/
inductive WriteOpKind
  | createSchedule
  | updateSchedule
  | deleteSchedule
  | createRun
  | updateRun
  | upsertSettings
  deriving Repr, DecidableEq

/-- `writeOp`: one queued operation. -/
structure WriteOp where
  kind : WriteOpKind
  payload : Nat
  deriving Repr, DecidableEq

/-- `writeQueue` state: channel buffer, context-cancelled flag, and the
operations already executed by the writer goroutine. -/
structure WriteQueue where
  buffer : List WriteOp
  cancelled : Bool
  executed : List WriteOp
  deriving Repr, DecidableEq

/-- Channel capacity: `make(chan writeOp, 100)`. -/
def queueCapacity : Nat := 100

/-- Outcome of the `select` in `enqueue`: the send succeeded, the context was
already cancelled (`ctx.Err()` is returned), or the buffer is full and the
call keeps waiting for space or cancellation. -/
inductive EnqueueOutcome
  | queued
  | contextCanceled
  | blockedWaiting
  deriving Repr, DecidableEq

/-- `writeQueue.enqueue`'s submission `select`: a cancelled context makes the
call return the cancellation error instead of waiting; otherwise the
operation is appended to the buffer when there is room. -/
def enqueueOp (q : WriteQueue) (op : WriteOp) : EnqueueOutcome × WriteQueue :=
  if q.cancelled then
    (.contextCanceled, q)
  else if q.buffer.length < queueCapacity then
    (.queued, { q with buffer := q.buffer ++ [op] })
  else
    (.blockedWaiting, q)

/-- The shutdown drain loop of `processQueue`: after `ctx.Done()`, pull and
execute buffered operations until the non-blocking receive finds the channel
empty. -/
def drainLoop (executed : List WriteOp) : List WriteOp → List WriteOp
  | [] => executed
  | op :: rest => drainLoop (executed ++ [op]) rest

/-- `processQueue`'s shutdown path: every operation still in the buffer is
executed, in order, before the writer goroutine returns. -/
def processShutdownDrain (q : WriteQueue) : WriteQueue :=
  { q with buffer := [], executed := drainLoop q.executed q.buffer }

/-! ## Scheduler caches (`pkg/cron/scheduler.go`)

The two per-org maps (`renderers`, `settingsCache`) become association lists;
a renderer instance is identified by a number drawn from a fresh-identity
counter, and `closedRenderers` records the instances whose `Close()` has been
called.  Both `ClearRendererCache` steps run under the same `cacheMutex`
write lock in the source, so they are one atomic state transition here. -/

/-- Map lookup on an association list. -/
def lookupAssoc (l : List (Nat × α)) (k : Nat) : Option α :=
  (l.find? fun p => p.1 == k).map (·.2)

/-- Map `delete` on an association list. -/
def removeAssoc (l : List (Nat × α)) (k : Nat) : List (Nat × α) :=
  l.filter fun p => !(p.1 == k)

/-- Map assignment on an association list. -/
def insertAssoc (l : List (Nat × α)) (k : Nat) (v : α) : List (Nat × α) :=
  (k, v) :: removeAssoc l k

/-- In-memory scheduler state: per-org renderer instances, the set of closed
renderer instances, the per-org settings cache, and the fresh-identity
counter for new renderer instances. -/
structure SchedulerState where
  renderers : List (Nat × Nat)
  closedRenderers : List Nat
  settingsCache : List (Nat × Settings)
  nextRendererID : Nat
  deriving Repr, DecidableEq

/-- `Scheduler.ClearRendererCache`: under the cache write lock, close and
remove the org's renderer if present, then drop the org's settings-cache
entry. -/
def ClearRendererCache (orgID : Nat) (st : SchedulerState) : SchedulerState :=
  let st1 :=
    match lookupAssoc st.renderers orgID with
    | some rid =>
      { st with
        closedRenderers := rid :: st.closedRenderers,
        renderers := removeAssoc st.renderers orgID }
    | none => st
  { st1 with settingsCache := removeAssoc st1.settingsCache orgID }

/-- The renderer resolution step of `executeScheduleOnce`: reuse the cached
instance for the org, otherwise create a fresh one (`render.NewBackend`) and
cache it. -/
def getOrCreateRenderer (orgID : Nat) (st : SchedulerState) : Nat × SchedulerState :=
  match lookupAssoc st.renderers orgID with
  | some rid => (rid, st)
  | none =>
    (st.nextRendererID,
      { st with
        renderers := insertAssoc st.renderers orgID st.nextRendererID,
        nextRendererID := st.nextRendererID + 1 })

/-- `Scheduler.getCachedSettings`: cache-first read; on a miss fetch from the
settings table and cache a non-nil result. -/
def getCachedSettings (orgID : Nat) (st : SchedulerState) (settingsDb : List Settings) :
    Option Settings × SchedulerState :=
  match lookupAssoc st.settingsCache orgID with
  | some cached => (some cached, st)
  | none =>
    match GetSettings settingsDb orgID with
    | none => (none, st)
    | some s => (some s, { st with settingsCache := insertAssoc st.settingsCache orgID s })

/-- The settings update path (`handleSettings`, POST branch): force the org id
onto the submitted settings, `UpsertSettings` them, then
`ClearRendererCache` for that org. -/
def handleSettingsPost (orgID : Nat) (incoming : Settings) (db : List Settings)
    (st : SchedulerState) : List Settings × SchedulerState :=
  let s := { incoming with orgID := orgID }
  (upsertSettingsDirect db s, ClearRendererCache orgID st)

/-! ## Job execution (`pkg/cron/scheduler.go`)

One execution attempt (`executeScheduleOnce`) interacts with three
collaborators — the settings lookup, the renderer, and the SMTP mailer.
Their outcomes are passed in as an `AttemptEnv`; the store writes the attempt
issues are recorded as an ordered event trace. -/

/-- Executable model of the `crypto/sha256` digest used for the run checksum
(the library itself is external to the repository; only the fact that a
digest of the artifact bytes is computed and persisted matters here). -/
def sha256Model (data : List Nat) : Nat :=
  data.foldl (fun h b => (h * 131 + b) % 1000000007) 5381

/-- A store write or email attempt issued during one execution attempt. -/
inductive StoreEvent
  | updateRun (r : Run)
  | sendEmail (recipientCount : Nat)
  deriving Repr, DecidableEq

/-- Collaborator outcomes for one execution attempt. -/
structure AttemptEnv where
  settingsResult : Except String (Option Settings)
  rendererResult : Except String Unit
  renderResult : Except String (List Nat)
  emailResult : Except String Unit
  deriving Repr

/-- `Scheduler.executeScheduleOnce`: settings lookup (nil settings is the
"no settings configured" configuration error), renderer resolution, render,
persist the artifact bytes/size/checksum via `UpdateRun` before any email
step, then the email step whose failure or absence of SMTP configuration is
recorded on the run without failing the attempt. -/
def executeScheduleOnce (schedule : Schedule) (run : Run) (env : AttemptEnv) :
    Except String Unit × Run × List StoreEvent :=
  match env.settingsResult with
  | .error e => (.error ("failed to get settings: " ++ e), run, [])
  | .ok none => (.error ("no settings configured for org " ++ toString schedule.orgID), run, [])
  | .ok (some settings) =>
    match env.rendererResult with
    | .error e => (.error ("failed to create renderer: " ++ e), run, [])
    | .ok () =>
      match env.renderResult with
      | .error e => (.error ("failed to render dashboard: " ++ e), run, [])
      | .ok data =>
        let run1 :=
          { run with
            renderedPages := 1, bytes := data.length,
            checksum := sha256Model data, artifactData := data }
        match settings.smtpConfig with
        | none =>
          let run2 := { run1 with emailSent := false, emailError := "SMTP not configured" }
          (.ok (), run2, [.updateRun run1, .updateRun run2])
        | some _ =>
          match env.emailResult with
          | .error e =>
            let run2 := { run1 with emailSent := false, emailError := e }
            (.ok (), run2,
              [.updateRun run1, .sendEmail schedule.recipients.toAddrs.length, .updateRun run2])
          | .ok () =>
            let run2 := { run1 with emailSent := true, emailError := "" }
            (.ok (), run2,
              [.updateRun run1, .sendEmail schedule.recipients.toAddrs.length, .updateRun run2])

/-- Result of the retry loop: final result, the 0-based indices of the
attempts actually executed, and the backoff sleeps (in seconds) performed
before re-attempts. -/
structure RetryOutcome where
  result : Except String Unit
  attemptsRun : List Nat
  backoffSleeps : List Nat
  deriving Repr

/-- The body of `executeWithRetry`'s `for attempt := 0; attempt < maxRetries`
loop: before every re-attempt (`attempt > 0`) sleep `attempt²` seconds; stop
on the first success; when the budget is exhausted return
`all <maxRetries> attempts failed: <last error>`. -/
def retryAux (f : Nat → Except String Unit) (maxRetries : Nat) :
    Nat → Nat → String → RetryOutcome
  | 0, _, lastErr =>
    ⟨.error ("all " ++ toString maxRetries ++ " attempts failed: " ++ lastErr), [], []⟩
  | k + 1, attempt, _ =>
    let sleeps0 := if attempt > 0 then [attempt * attempt] else []
    match f attempt with
    | .ok () => ⟨.ok (), [attempt], sleeps0⟩
    | .error e =>
      let rest := retryAux f maxRetries k (attempt + 1) e
      ⟨rest.result, attempt :: rest.attemptsRun, sleeps0 ++ rest.backoffSleeps⟩

/-- `Scheduler.executeWithRetry` over an attempt function (the scheduler
passes `maxRetries = 3`). -/
def executeWithRetry (f : Nat → Except String Unit) (maxRetries : Nat) : RetryOutcome :=
  retryAux f maxRetries maxRetries 0 ""

/-- The run finalisation in `executeSchedule` after the retry loop: set the
finish time, then `failed` + error text on error, `completed` on success. -/
def finalizeRun (run : Run) (finishedAt : Nat) (res : Except String Unit) : Run :=
  match res with
  | .error e => { run with finishedAt := some finishedAt, status := "failed", errorText := e }
  | .ok () => { run with finishedAt := some finishedAt, status := "completed" }

/-! ## Next-run calculation (`calculateNextRun`)

Instants are nanoseconds since the Unix epoch (`Nat`), matching `time.Time`'s
observable precision on the verified paths.  The external pieces are
modelled over the fragment the repository exercises:

* `time.LoadLocation` over a finite fixed-offset fragment of the IANA
  database (DST transitions are not modelled; the offset is the seconds east
  of UTC);
* `github.com/gorhill/cronexpr` for five-field expressions whose fields are
  `*` or a single in-range number — this covers the three derived
  expressions and fails to parse exactly when the library's grammar is left;
  `Next` is the first minute boundary strictly after the given instant that
  matches the expression, searched within the library's five-year horizon
  (`nil`/zero time beyond it). -/

def nsPerSec : Nat := 1000000000

def nsPerMin : Nat := 60 * nsPerSec

/-- `time.Time.Truncate(time.Second)` on a nanosecond instant. -/
def truncateToSecondNs (t : Nat) : Nat := t / nsPerSec * nsPerSec

/-- Proleptic Gregorian civil date. -/
structure CivilDate where
  year : Nat
  month : Nat
  day : Nat
  deriving Repr, DecidableEq

/-- Civil date from days since 1970-01-01 (Hinnant's algorithm, restricted to
non-negative day counts). -/
def civilFromDays (z0 : Nat) : CivilDate :=
  let z := z0 + 719468
  let era := z / 146097
  let doe := z % 146097
  let yoe := (doe - doe / 1460 + doe / 36524 - doe / 146096) / 365
  let y := yoe + era * 400
  let doy := doe - (365 * yoe + yoe / 4 - yoe / 100)
  let mp := (5 * doy + 2) / 153
  let d := doy - (153 * mp + 2) / 5 + 1
  let m := if mp < 10 then mp + 3 else mp - 9
  ⟨if m ≤ 2 then y + 1 else y, m, d⟩

/-- Weekday of a day count, `0 = Sunday` (1970-01-01 was a Thursday). -/
def weekdayOfDay (z : Nat) : Nat := (z + 4) % 7

/-- A parsed five-field cron expression; `none` is `*`. -/
structure CronExpr where
  minuteF : Option Nat
  hourF : Option Nat
  domF : Option Nat
  monthF : Option Nat
  dowF : Option Nat
  deriving Repr, DecidableEq

/-- Decimal digit value. -/
def digitVal? (c : Char) : Option Nat :=
  if '0' ≤ c && c ≤ '9' then some (c.toNat - 48) else none

/-- Parse a non-empty all-digit character list. -/
def charsToNat? : List Char → Option Nat
  | [] => none
  | cs => go 0 cs
where
  go (acc : Nat) : List Char → Option Nat
    | [] => some acc
    | c :: cs =>
      match digitVal? c with
      | some d => go (acc * 10 + d) cs
      | none => none

/-- Parse one cron field: `*`, or a number within the field's range. -/
def parseCronField (cs : List Char) (lo hi : Nat) : Option (Option Nat) :=
  if cs == ['*'] then
    some none
  else
    match charsToNat? cs with
    | some n => if lo ≤ n && n ≤ hi then some (some n) else none
    | none => none

/-- `cronexpr.Parse` on the modelled grammar: five whitespace-separated
fields, each `*` or an in-range number (minute 0–59, hour 0–23, day-of-month
1–31, month 1–12, day-of-week 0–7 with 7 ≡ Sunday). -/
def cronParse (expr : String) : Option CronExpr :=
  match (goSplit ' ' expr.data).filter (fun f => !(f == [])) with
  | [f1, f2, f3, f4, f5] =>
    match parseCronField f1 0 59, parseCronField f2 0 23, parseCronField f3 1 31,
        parseCronField f4 1 12, parseCronField f5 0 7 with
    | some mi, some h, some d, some mo, some w => some ⟨mi, h, d, mo, w.map (· % 7)⟩
    | _, _, _, _, _ => none
  | _ => none

/-- One restricted field matches a value. -/
def fieldOk : Option Nat → Nat → Bool
  | none, _ => true
  | some v, x => v == x

/-- Whether the minute starting at minute-index `minIdx` (minutes since the
epoch, local clock) fires the expression; day-of-month and day-of-week are
OR-combined when both are restricted, as in standard cron. -/
def cronMatchesMinute (e : CronExpr) (minIdx : Nat) : Bool :=
  let minute := minIdx % 60
  let totalHours := minIdx / 60
  let hour := totalHours % 24
  let days := totalHours / 24
  let date := civilFromDays days
  let wd := weekdayOfDay days
  fieldOk e.minuteF minute && fieldOk e.hourF hour && fieldOk e.monthF date.month &&
    (match e.domF, e.dowF with
     | some dd, some dw => date.day == dd || wd == dw
     | some dd, none => date.day == dd
     | none, some dw => wd == dw
     | none, none => true)

/-- Linear search for the first firing minute at or after `minIdx`. -/
def cronSearchFrom (e : CronExpr) : Nat → Nat → Option Nat
  | 0, _ => none
  | fuel + 1, minIdx =>
    if cronMatchesMinute e minIdx then some minIdx else cronSearchFrom e fuel (minIdx + 1)

/-- The library's five-year search horizon, in minutes. -/
def cronSearchFuel : Nat := 2700000

/-- `cronexpr.Expression.Next`: first firing minute boundary strictly after
the nanosecond instant `tNs` (local clock), within the search horizon. -/
def cronexprNext (e : CronExpr) (tNs : Nat) : Option Nat :=
  (cronSearchFrom e cronSearchFuel (tNs / nsPerMin + 1)).map (· * nsPerMin)

/-- `time.LoadLocation` over the modelled zone table (offset seconds east of
UTC; the empty name is UTC, unknown names fail). -/
def loadLocation (name : String) : Option Nat :=
  (zoneOffsets.find? fun p => p.1 == name).map (·.2)
where
  zoneOffsets : List (String × Nat) :=
    [("", 0), ("UTC", 0), ("Europe/London", 0), ("Europe/Paris", 3600),
     ("Europe/Kyiv", 7200), ("Asia/Tokyo", 32400)]

/-- The cron-expression resolution inside `calculateNextRun`: an explicit
expression wins; an empty one is derived from `interval_type`, with unknown
classifications treated as daily. -/
def resolveCronExpression (s : Schedule) : String :=
  if s.cronExpr == "" then
    match s.intervalType with
    | "daily" => "0 0 * * *"
    | "weekly" => "0 0 * * 1"
    | "monthly" => "0 0 1 * *"
    | _ => "0 0 * * *"
  else
    s.cronExpr

/-- `Scheduler.calculateNextRun`: load the timezone (UTC on failure), take the
current time on that local clock, resolve and parse the effective cron
expression (falling back to one hour from now when it does not parse),
evaluate the next firing strictly after now, convert back to UTC and
truncate to whole seconds.  The unreachable exhausted-horizon branch mirrors
the library's zero time. -/
def calculateNextRun (nowUtcNs : Nat) (s : Schedule) : Nat :=
  let offset := (loadLocation s.timezone).getD 0
  let nowLocalNs := nowUtcNs + offset * nsPerSec
  match cronParse (resolveCronExpression s) with
  | none => truncateToSecondNs (nowUtcNs + 3600 * nsPerSec)
  | some e =>
    match cronexprNext e nowLocalNs with
    | some nextLocalNs => truncateToSecondNs (nextLocalNs - offset * nsPerSec)
    | none => 0

/-! ## Concrete sample rows (used by counterexamples and witnesses) -/

/-- A concrete schedule row. -/
def sampleSchedule : Schedule :=
  { id := 5, orgID := 2, name := "weekly-report", dashboardUID := "abc123",
    dashboardTitle := "Sales", panelIDs := [1, 2], rangeFrom := "now-7d", rangeTo := "now",
    intervalType := "daily", cronExpr := "", timezone := "Europe/Kyiv",
    variableOverrides := [], recipients := ⟨["user@example.com"], [], []⟩,
    emailSubject := "Report", emailBody := "See attachment", templateID := none,
    enabled := true, lastRunAt := none, nextRunAt := none, ownerUserID := 9,
    createdAt := 100, updatedAt := 100 }

/-- A concrete run row. -/
def sampleRun : Run :=
  { id := 11, scheduleID := 5, orgID := 2, startedAt := 1000, finishedAt := none,
    status := "running", emailSent := false, emailError := "", errorText := "",
    artifactPath := "", artifactData := [], renderedPages := 0, bytes := 0,
    checksum := 0, createdAt := 1000 }

/-- A concrete settings row. -/
def sampleSettings : Settings :=
  { id := 1, orgID := 2, smtpConfig := none,
    rendererConfig :=
      ⟨"chromium", "http://g:3000", 60000, 1920, 1080⟩,
    limits :=
      ⟨50, 25, 5, 30, []⟩ }

/-- 51 runs of `sampleSchedule`'s (schedule 5, org 2), with distinct start
times 0..50 — one more than the `LIMIT 50` of `ListRuns`. -/
def manyRuns : List Run :=
  (List.range 51).map fun i => { sampleRun with id := i, startedAt := i }

/-- A concrete scheduler state: live renderers 0 (org 2) and 1 (org 3), a
cached settings entry for org 2, fresh-identity counter 2. -/
def sampleSchedulerState : SchedulerState :=
  ⟨[(2, 0), (3, 1)], [], [(2, sampleSettings)], 2⟩

/-- An attempt environment whose settings lookup finds no settings row for
the tenant (the "no settings configured" configuration error). -/
def noSettingsEnv : AttemptEnv := ⟨.ok none, .ok (), .ok [], .ok ()⟩

/-- The attempt function the scheduler retries, instantiated on a tenant with
no settings row. -/
def noSettingsAttempt : Nat → Except String Unit :=
  fun _ => (executeScheduleOnce sampleSchedule sampleRun noSettingsEnv).1

/-- Acceptance condition for one recipient entry, mirroring the loop body of
`ValidateRecipientDomains`: blank after trimming, or a well-formed address
whose domain passes the whitelist. -/
def recipientEmailOk (allowedDomains : List String) (email0 : String) : Bool :=
  let email := trimChars email0.data
  email == [] ||
    (!(extractDomain email == []) && isDomainAllowed (extractDomain email) allowedDomains)

/-! ## Theorems -/

theorem mem_insertByLe (le : α → α → Bool) (x a : α) (l : List α) :
    a ∈ insertByLe le x l ↔ a = x ∨ a ∈ l := by
  induction l with
  | nil => simp [insertByLe]
  | cons y ys ih =>
    simp only [insertByLe]
    split
    · simp [List.mem_cons]
    · simp only [List.mem_cons, ih]
      tauto

theorem mem_sortByLe (le : α → α → Bool) (a : α) (l : List α) :
    a ∈ sortByLe le l ↔ a ∈ l := by
  induction l with
  | nil => simp [sortByLe]
  | cons x xs ih => simp [sortByLe, mem_insertByLe, ih]

theorem pairwise_insertByLe (le : α → α → Bool)
    (htot : ∀ a b, le a b = true ∨ le b a = true)
    (htrans : ∀ a b c, le a b = true → le b c = true → le a c = true)
    (x : α) (l : List α) (h : l.Pairwise fun a b => le a b = true) :
    (insertByLe le x l).Pairwise fun a b => le a b = true := by
  induction l with
  | nil => simp [insertByLe]
  | cons y ys ih =>
    rcases List.pairwise_cons.mp h with ⟨hy, hys⟩
    simp only [insertByLe]
    split
    next hxy =>
      refine List.pairwise_cons.mpr ⟨?_, h⟩
      intro b hb
      rcases List.mem_cons.mp hb with rfl | hb
      · exact hxy
      · exact htrans _ _ _ hxy (hy b hb)
    next hxy =>
      have hyx : le y x = true := by
        rcases htot x y with h' | h'
        · exact absurd h' hxy
        · exact h'
      refine List.pairwise_cons.mpr ⟨?_, ih hys⟩
      intro b hb
      rcases (mem_insertByLe le x b ys).mp hb with rfl | hb
      · exact hyx
      · exact hy b hb

theorem pairwise_sortByLe (le : α → α → Bool)
    (htot : ∀ a b, le a b = true ∨ le b a = true)
    (htrans : ∀ a b c, le a b = true → le b c = true → le a c = true)
    (l : List α) : (sortByLe le l).Pairwise fun a b => le a b = true := by
  induction l with
  | nil => simp [sortByLe]
  | cons x xs ih => exact pairwise_insertByLe le htot htrans x _ ih

theorem lookupAssoc_cons (p : Nat × α) (l : List (Nat × α)) (k : Nat) :
    lookupAssoc (p :: l) k = if p.1 = k then some p.2 else lookupAssoc l k := by
  by_cases h : p.1 = k
  · rw [if_pos h, lookupAssoc, List.find?_cons_of_pos _ (by simpa using h)]
    rfl
  · rw [if_neg h, lookupAssoc, List.find?_cons_of_neg _ (by simpa using h)]
    rfl

theorem removeAssoc_cons (p : Nat × α) (l : List (Nat × α)) (k : Nat) :
    removeAssoc (p :: l) k = if p.1 = k then removeAssoc l k else p :: removeAssoc l k := by
  by_cases h : p.1 = k <;> simp [removeAssoc, List.filter_cons, h]

theorem lookupAssoc_removeAssoc_self (l : List (Nat × α)) (k : Nat) :
    lookupAssoc (removeAssoc l k) k = none := by
  induction l with
  | nil => rfl
  | cons p ps ih =>
    rw [removeAssoc_cons]
    by_cases h : p.1 = k
    · simpa [h] using ih
    · rw [if_neg h, lookupAssoc_cons, if_neg h]
      exact ih

theorem lookupAssoc_removeAssoc_ne (l : List (Nat × α)) (k k' : Nat) (h : k' ≠ k) :
    lookupAssoc (removeAssoc l k) k' = lookupAssoc l k' := by
  induction l with
  | nil => rfl
  | cons p ps ih =>
    rw [removeAssoc_cons, lookupAssoc_cons]
    by_cases hp : p.1 = k
    · rw [if_pos hp, if_neg (by omega : ¬p.1 = k'), ih]
    · rw [if_neg hp, lookupAssoc_cons, ih]

theorem isDue_iff (now : Nat) (s : Schedule) :
    isDue now s = true ↔ s.nextRunAt = none ∨ ∃ t, s.nextRunAt = some t ∧ t ≤ now := by
  cases h : s.nextRunAt with
  | none => simp [isDue, h]
  | some t => simp [isDue, h, Nat.ble_eq]

theorem dueKeyLe_total (a b : Option Nat) : dueKeyLe a b = true ∨ dueKeyLe b a = true := by
  cases a <;> cases b <;> simp [dueKeyLe, Nat.ble_eq] <;> omega

theorem dueKeyLe_trans (a b c : Option Nat) (h1 : dueKeyLe a b = true)
    (h2 : dueKeyLe b c = true) : dueKeyLe a c = true := by
  cases a <;> cases b <;> cases c <;> simp_all [dueKeyLe, Nat.ble_eq] <;> omega

/-- C4: `GetDueSchedules` returns exactly the rows with `enabled = true` whose
`next_run_at` is null or at most the current UTC time; the result is ordered
by `next_run_at` ascending (nulls first, as SQLite sorts them); the query is
a pure function of the table and the clock, so two calls with no intervening
write return the same list; and once the dispatcher has persisted a
`next_run_at` strictly past now for a schedule, no row with that schedule's
(id, org) pair appears in the due set any more. -/
theorem claimC4_due_schedule_selection :
    (∀ (now : Nat) (db : List Schedule) (s : Schedule),
      s ∈ GetDueSchedules now db ↔
        s ∈ db ∧ s.enabled = true ∧
          (s.nextRunAt = none ∨ ∃ t, s.nextRunAt = some t ∧ t ≤ now)) ∧
    (∀ (now : Nat) (db : List Schedule),
      GetDueSchedules now db = GetDueSchedules now db) ∧
    (∀ (now : Nat) (db : List Schedule),
      (GetDueSchedules now db).Pairwise fun a b => dueKeyLe a.nextRunAt b.nextRunAt = true) ∧
    (∀ (now nowTs t : Nat) (db db' : List Schedule) (s : Schedule),
      s.nextRunAt = some t → now < t →
      updateScheduleDirect nowTs db s = .ok db' →
      ∀ r ∈ GetDueSchedules now db', ¬(r.id = s.id ∧ r.orgID = s.orgID)) := by
  refine ⟨?_, fun _ _ => rfl, ?_, ?_⟩
  · intro now db s
    rw [GetDueSchedules, mem_sortByLe, List.mem_filter]
    rw [Bool.and_eq_true, ← isDue_iff now s]
  · intro now db
    have h := pairwise_sortByLe (fun a b : Schedule => dueKeyLe a.nextRunAt b.nextRunAt)
      (fun a b => dueKeyLe_total _ _) (fun a b c => dueKeyLe_trans _ _ _)
      (db.filter fun s => s.enabled && isDue now s)
    simpa [GetDueSchedules] using h
  · intro now nowTs t db db' s hnext hlt hupd r hr ⟨hid, horg⟩
    have hdb' : db' = db.map fun r =>
        if r.id == s.id && r.orgID == s.orgID then overwriteScheduleRow nowTs r s else r := by
      simpa [updateScheduleDirect] using hupd.symm
    have hr' := hr
    rw [GetDueSchedules, mem_sortByLe, List.mem_filter] at hr'
    rcases hr' with ⟨hmem, hcond⟩
    rw [hdb', List.mem_map] at hmem
    rcases hmem with ⟨r0, _, hr0⟩
    by_cases hmatch : (r0.id == s.id && r0.orgID == s.orgID) = true
    · rw [if_pos hmatch] at hr0
      have hnr : r.nextRunAt = some t := by
        rw [← hr0, overwriteScheduleRow, hnext]
      rw [Bool.and_eq_true] at hcond
      rcases (isDue_iff now r).mp hcond.2 with h | ⟨t', ht', hle⟩
      · rw [hnr] at h
        exact Option.noConfusion h
      · rw [hnr] at ht'
        injection ht' with h
        omega
    · rw [if_neg hmatch] at hr0
      rw [← hr0] at hid horg
      simp [hid, horg] at hmatch

/-- Witness for `claimC4_due_schedule_selection`: a schedule due at time 100
is in the due set; after the dispatcher persists `next_run_at = 150` with the
clock at 100, no row of that schedule appears in the due set. -/
theorem claimC4_due_schedule_selection_witness :
    ∀ r ∈ GetDueSchedules 100
      ((updateScheduleDirect 100
        [{ sampleSchedule with nextRunAt := some 90 }]
        { sampleSchedule with nextRunAt := some 150 }).toOption.getD []),
      ¬(r.id = sampleSchedule.id ∧ r.orgID = sampleSchedule.orgID) := by
  have h := claimC4_due_schedule_selection.2.2.2 100 100 150
    [{ sampleSchedule with nextRunAt := some 90 }]
    ((updateScheduleDirect 100
      [{ sampleSchedule with nextRunAt := some 90 }]
      { sampleSchedule with nextRunAt := some 150 }).toOption.getD [])
    { sampleSchedule with nextRunAt := some 150 }
    rfl (by omega) rfl
  exact h

theorem removeAssoc_of_lookup_none (l : List (Nat × α)) (k : Nat)
    (h : lookupAssoc l k = none) : removeAssoc l k = l := by
  induction l with
  | nil => rfl
  | cons p ps ih =>
    rw [lookupAssoc_cons] at h
    by_cases hp : p.1 = k
    · rw [if_pos hp] at h
      exact absurd h (by simp)
    · rw [if_neg hp] at h
      rw [removeAssoc_cons, if_neg hp, ih h]

theorem drainLoop_eq (executed l : List WriteOp) :
    drainLoop executed l = executed ++ l := by
  induction l generalizing executed with
  | nil => simp [drainLoop]
  | cons op rest ih => simp [drainLoop, ih]

theorem retryAux_attempts_le (f : Nat → Except String Unit) (m : Nat) :
    ∀ (k a : Nat) (e : String), (retryAux f m k a e).attemptsRun.length ≤ k := by
  intro k
  induction k with
  | zero => intro a e; simp [retryAux]
  | succ k ih =>
    intro a e
    simp only [retryAux]
    cases f a with
    | ok _ => simp
    | error e' => simpa using ih (a + 1) e'

/-- C5: `executeWithRetry` with budget 3 runs at most 3 attempts; before the
second attempt it sleeps 1 second and before the third 4 seconds
(`attempt²`); the first success stops the loop and the run is finalised
`completed`; when all 3 attempts fail, the result error embeds the last
attempt's error text and the run is finalised `failed` with that text. -/
theorem claimC5_retry_policy (f : Nat → Except String Unit) (run : Run) (tfin : Nat) :
    (executeWithRetry f 3).attemptsRun.length ≤ 3 ∧
    (f 0 = .ok () → executeWithRetry f 3 = ⟨.ok (), [0], []⟩) ∧
    (∀ e0, f 0 = .error e0 → f 1 = .ok () →
      executeWithRetry f 3 = ⟨.ok (), [0, 1], [1]⟩) ∧
    (∀ e0 e1, f 0 = .error e0 → f 1 = .error e1 → f 2 = .ok () →
      executeWithRetry f 3 = ⟨.ok (), [0, 1, 2], [1, 4]⟩) ∧
    (∀ e0 e1 e2, f 0 = .error e0 → f 1 = .error e1 → f 2 = .error e2 →
      executeWithRetry f 3 =
        ⟨.error ("all 3 attempts failed: " ++ e2), [0, 1, 2], [1, 4]⟩ ∧
      finalizeRun run tfin (executeWithRetry f 3).result =
        { run with
          finishedAt := some tfin, status := "failed",
          errorText := "all 3 attempts failed: " ++ e2 } ∧
      ∃ pre, "all 3 attempts failed: " ++ e2 = pre ++ e2) ∧
    ((executeWithRetry f 3).result = .ok () →
      finalizeRun run tfin (executeWithRetry f 3).result =
        { run with finishedAt := some tfin, status := "completed" }) := by
  refine ⟨retryAux_attempts_le f 3 3 0 "", ?_, ?_, ?_, ?_, ?_⟩
  · intro h0
    simp [executeWithRetry, retryAux, h0]
  · intro e0 h0 h1
    simp [executeWithRetry, retryAux, h0, h1]
  · intro e0 e1 h0 h1 h2
    simp [executeWithRetry, retryAux, h0, h1, h2]
  · intro e0 e1 e2 h0 h1 h2
    refine ⟨?_, ?_, "all 3 attempts failed: ", rfl⟩
    · simp [executeWithRetry, retryAux, h0, h1, h2]
      rfl
    · simp [executeWithRetry, retryAux, h0, h1, h2, finalizeRun]
      rfl
  · intro hok
    simp [finalizeRun, hok]

/-- Witness for `claimC5_retry_policy`: an always-failing attempt runs
exactly attempts 0, 1, 2 with backoffs 1 and 4 seconds and ends in the
`all 3 attempts failed` error; an attempt failing only the first time stops
after attempt 1 with a single 1-second backoff. -/
theorem claimC5_retry_policy_witness :
    executeWithRetry (fun _ => Except.error "render failed") 3 =
      ⟨.error ("all 3 attempts failed: " ++ "render failed"), [0, 1, 2], [1, 4]⟩ ∧
    executeWithRetry (fun i => if i == 0 then Except.error "flaky" else Except.ok ()) 3 =
      ⟨.ok (), [0, 1], [1]⟩ := by
  have h1 := (claimC5_retry_policy (fun _ => Except.error "render failed") sampleRun 0).2.2.2.2.1
    "render failed" "render failed" "render failed" rfl rfl rfl
  have h2 := (claimC5_retry_policy
    (fun i => if i == 0 then Except.error "flaky" else Except.ok ()) sampleRun 0).2.2.1
    "flaky" rfl rfl
  exact ⟨h1.1, h2⟩

theorem cronSearchFrom_spec (e : CronExpr) (fuel : Nat) :
    ∀ (start m : Nat), cronSearchFrom e fuel start = some m →
      start ≤ m ∧ cronMatchesMinute e m = true ∧
      ∀ m', start ≤ m' → m' < m → cronMatchesMinute e m' = false := by
  induction fuel with
  | zero =>
    intro start m h
    exact absurd h (by simp [cronSearchFrom])
  | succ fuel ih =>
    intro start m h
    rw [cronSearchFrom] at h
    by_cases hm : cronMatchesMinute e start = true
    · rw [if_pos hm] at h
      injection h with h'
      subst h'
      exact ⟨Nat.le_refl _, hm, fun m' h1 h2 => absurd h2 (by omega)⟩
    · rw [if_neg hm] at h
      rcases ih (start + 1) m h with ⟨h1, h2, h3⟩
      refine ⟨by omega, h2, ?_⟩
      intro m' hm1 hm2
      by_cases heq : m' = start
      · subst heq
        exact Bool.eq_false_iff.mpr hm
      · exact h3 m' (by omega) hm2

/-- C3: `calculateNextRun` derives the effective cron expression from
`interval_type` when the explicit one is empty (`daily`/unknown → midnight
daily, `weekly` → Monday midnight, `monthly` → first of month); on the cron
path the result is the first firing minute of the effective expression
strictly after the current time on the schedule's local clock — no earlier
minute fires — converted to UTC and truncated to whole seconds, and it is
strictly in the future; the regression scenario holds concretely: a daily
schedule evaluated at 22:35:57 local (Europe/Kyiv) fires at the next local
midnight, not 24 h later; an unloadable timezone behaves exactly as UTC; and
an unparseable explicit expression falls back to one hour from now
(truncated), also in the future. -/
theorem claimC3_calculate_next_run :
    (∀ s : Schedule, s.cronExpr = "" → s.intervalType = "daily" →
      resolveCronExpression s = "0 0 * * *") ∧
    (∀ s : Schedule, s.cronExpr = "" → s.intervalType = "weekly" →
      resolveCronExpression s = "0 0 * * 1") ∧
    (∀ s : Schedule, s.cronExpr = "" → s.intervalType = "monthly" →
      resolveCronExpression s = "0 0 1 * *") ∧
    (∀ s : Schedule, s.cronExpr = "" → s.intervalType ≠ "daily" →
      s.intervalType ≠ "weekly" → s.intervalType ≠ "monthly" →
      resolveCronExpression s = "0 0 * * *") ∧
    (∀ (now : Nat) (s : Schedule) (e : CronExpr) (offset m : Nat),
      loadLocation s.timezone = some offset →
      cronParse (resolveCronExpression s) = some e →
      cronSearchFrom e cronSearchFuel ((now + offset * nsPerSec) / nsPerMin + 1) = some m →
      calculateNextRun now s = m * nsPerMin - offset * nsPerSec ∧
      cronMatchesMinute e m = true ∧
      now + offset * nsPerSec < m * nsPerMin ∧
      now < calculateNextRun now s ∧
      (∀ m', (now + offset * nsPerSec) / nsPerMin + 1 ≤ m' → m' < m →
        cronMatchesMinute e m' = false)) ∧
    (calculateNextRun (1750019757 * nsPerSec + 123456789) sampleSchedule =
      1750024800 * nsPerSec ∧
     calculateNextRun (1750019757 * nsPerSec + 123456789) sampleSchedule ≠
      truncateToSecondNs (1750019757 * nsPerSec + 123456789 + 86400 * nsPerSec)) ∧
    (∀ (now : Nat) (s : Schedule), loadLocation s.timezone = none →
      calculateNextRun now s = calculateNextRun now { s with timezone := "UTC" }) ∧
    (calculateNextRun (1750019757 * nsPerSec)
        { sampleSchedule with timezone := "Mars/Olympus" } = 1750032000 * nsPerSec) ∧
    (∀ (now : Nat) (s : Schedule), s.cronExpr ≠ "" → cronParse s.cronExpr = none →
      calculateNextRun now s = truncateToSecondNs (now + 3600 * nsPerSec) ∧
      now < calculateNextRun now s) := by
  refine ⟨?_, ?_, ?_, ?_, ?_, ⟨by decide, by decide⟩, ?_, by decide, ?_⟩
  · intro s h1 h2
    simp [resolveCronExpression, h1, h2]
  · intro s h1 h2
    simp [resolveCronExpression, h1, h2]
  · intro s h1 h2
    simp [resolveCronExpression, h1, h2]
  · intro s h1 hd hw hm
    simp [resolveCronExpression, h1, hd, hw, hm]
  · intro now s e offset m hoff hparse hsearch
    rcases cronSearchFrom_spec e cronSearchFuel _ _ hsearch with ⟨hge, hmatch, hmin⟩
    have hltstart : now + offset * nsPerSec <
        ((now + offset * nsPerSec) / nsPerMin + 1) * nsPerMin := by
      simp only [nsPerMin, nsPerSec]
      omega
    have hltm : now + offset * nsPerSec < m * nsPerMin :=
      Nat.lt_of_lt_of_le hltstart (Nat.mul_le_mul_right _ hge)
    have hcalc : calculateNextRun now s =
        truncateToSecondNs (m * nsPerMin - offset * nsPerSec) := by
      simp [calculateNextRun, cronexprNext, hoff, hparse, hsearch]
    have hdiff : m * nsPerMin - offset * nsPerSec = (m * 60 - offset) * nsPerSec := by
      simp only [nsPerMin, nsPerSec]
      have h60 : m * (60 * 1000000000) = m * 60 * 1000000000 := by ring
      omega
    have htrunc : truncateToSecondNs ((m * 60 - offset) * nsPerSec) =
        (m * 60 - offset) * nsPerSec := by
      rw [truncateToSecondNs, Nat.mul_div_cancel _ (by simp [nsPerSec])]
    have hresult : calculateNextRun now s = m * nsPerMin - offset * nsPerSec := by
      rw [hcalc, hdiff, htrunc, ← hdiff]
    refine ⟨hresult, hmatch, hltm, ?_, hmin⟩
    rw [hresult]
    simp only [nsPerMin, nsPerSec] at hltm ⊢
    omega
  · intro now s h
    simp [calculateNextRun, h, show loadLocation "UTC" = some 0 from rfl]
    rw [show resolveCronExpression { s with timezone := "UTC" } = resolveCronExpression s
      from rfl]
  · intro now s h1 h2
    have hres : resolveCronExpression s = s.cronExpr := by
      rw [resolveCronExpression, if_neg (by simpa using h1)]
    constructor
    · simp [calculateNextRun, hres, h2]
    · have : calculateNextRun now s = truncateToSecondNs (now + 3600 * nsPerSec) := by
        simp [calculateNextRun, hres, h2]
      rw [this]
      simp only [truncateToSecondNs, nsPerSec]
      omega

/-- Witness for `claimC3_calculate_next_run`: the derivation at the sample
daily schedule; the cron path at the sample schedule — search start minute
29167116 (= 22:36 local), firing minute 29167200 (= 2025-06-16 00:00 local
Kyiv); the unloadable-zone equivalence at `Mars/Olympus`; the one-hour
fallback at an unparseable expression. -/
theorem claimC3_calculate_next_run_witness :
    resolveCronExpression sampleSchedule = "0 0 * * *" ∧
    calculateNextRun (1750019757 * nsPerSec + 123456789) sampleSchedule =
      29167200 * nsPerMin - 7200 * nsPerSec ∧
    calculateNextRun (1750019757 * nsPerSec) { sampleSchedule with timezone := "Mars/Olympus" } =
      calculateNextRun (1750019757 * nsPerSec) { sampleSchedule with timezone := "UTC" } ∧
    calculateNextRun 0 { sampleSchedule with cronExpr := "not a cron" } =
      truncateToSecondNs (0 + 3600 * nsPerSec) := by
  have h := claimC3_calculate_next_run
  refine ⟨h.1 sampleSchedule rfl rfl, ?_, ?_, ?_⟩
  · exact (h.2.2.2.2.1 (1750019757 * nsPerSec + 123456789) sampleSchedule
      ⟨some 0, some 0, none, none, none⟩ 7200 29167200 rfl rfl (by decide)).1
  · exact h.2.2.2.2.2.2.1 (1750019757 * nsPerSec)
      { sampleSchedule with timezone := "Mars/Olympus" } rfl
  · exact (h.2.2.2.2.2.2.2.2 0 { sampleSchedule with cronExpr := "not a cron" }
      (by decide) rfl).1

/-- C1: after the settings write path (`UpsertSettings` followed by
`ClearRendererCache` for the tenant, both expressed by
`handleSettingsPost`), the tenant's renderer has been closed and removed and
its settings-cache entry dropped; caches of every other tenant are
untouched; the next renderer resolution for the tenant creates a fresh
instance distinct from the old one (under the counter invariant that live
renderer ids are below the fresh-identity counter, which holds because ids
are only handed out by the counter); and the next settings read for the
tenant comes from the settings table, not from the dropped cache entry. -/
theorem claimC1_settings_update_clears_tenant_caches
    (orgID : Nat) (incoming : Settings) (db : List Settings) (st : SchedulerState)
    (hfresh : ∀ rid, lookupAssoc st.renderers orgID = some rid → rid < st.nextRendererID) :
    lookupAssoc (handleSettingsPost orgID incoming db st).2.renderers orgID = none ∧
    (∀ rid, lookupAssoc st.renderers orgID = some rid →
      rid ∈ (handleSettingsPost orgID incoming db st).2.closedRenderers) ∧
    lookupAssoc (handleSettingsPost orgID incoming db st).2.settingsCache orgID = none ∧
    (∀ o, o ≠ orgID →
      lookupAssoc (handleSettingsPost orgID incoming db st).2.renderers o =
        lookupAssoc st.renderers o) ∧
    (∀ o, o ≠ orgID →
      lookupAssoc (handleSettingsPost orgID incoming db st).2.settingsCache o =
        lookupAssoc st.settingsCache o) ∧
    (∀ rid, lookupAssoc st.renderers orgID = some rid →
      (getOrCreateRenderer orgID (handleSettingsPost orgID incoming db st).2).1 ≠ rid) ∧
    ((getCachedSettings orgID (handleSettingsPost orgID incoming db st).2
        (handleSettingsPost orgID incoming db st).1).1 =
      GetSettings (handleSettingsPost orgID incoming db st).1 orgID) := by
  have hrend : (handleSettingsPost orgID incoming db st).2.renderers =
      removeAssoc st.renderers orgID ∧
      (handleSettingsPost orgID incoming db st).2.settingsCache =
      removeAssoc st.settingsCache orgID ∧
      (handleSettingsPost orgID incoming db st).2.nextRendererID = st.nextRendererID := by
    cases hl : lookupAssoc st.renderers orgID with
    | none =>
      refine ⟨?_, ?_, ?_⟩ <;>
        simp [handleSettingsPost, ClearRendererCache, hl, removeAssoc_of_lookup_none _ _ hl]
    | some rid => simp [handleSettingsPost, ClearRendererCache, hl]
  refine ⟨?_, ?_, ?_, ?_, ?_, ?_, ?_⟩
  · rw [hrend.1, lookupAssoc_removeAssoc_self]
  · intro rid hl
    simp [handleSettingsPost, ClearRendererCache, hl]
  · rw [hrend.2.1, lookupAssoc_removeAssoc_self]
  · intro o ho
    rw [hrend.1, lookupAssoc_removeAssoc_ne _ _ _ ho]
  · intro o ho
    rw [hrend.2.1, lookupAssoc_removeAssoc_ne _ _ _ ho]
  · intro rid hl
    have h1 : lookupAssoc (handleSettingsPost orgID incoming db st).2.renderers orgID = none := by
      rw [hrend.1, lookupAssoc_removeAssoc_self]
    have h2 := hfresh rid hl
    simp [getOrCreateRenderer, h1, hrend.2.2]
    omega
  · have h1 : lookupAssoc (handleSettingsPost orgID incoming db st).2.settingsCache orgID =
        none := by
      rw [hrend.2.1, lookupAssoc_removeAssoc_self]
    rw [getCachedSettings, h1]
    cases hg : GetSettings (handleSettingsPost orgID incoming db st).1 orgID <;> simp

/-- Witness for `claimC1_settings_update_clears_tenant_caches`: org 2's
renderer (instance 0) is gone and closed, org 3's renderer is untouched, and
the next renderer for org 2 is a different instance. -/
theorem claimC1_settings_update_clears_tenant_caches_witness :
    lookupAssoc (handleSettingsPost 2 sampleSettings [] sampleSchedulerState).2.renderers 2 =
      none ∧
    0 ∈ (handleSettingsPost 2 sampleSettings [] sampleSchedulerState).2.closedRenderers ∧
    lookupAssoc (handleSettingsPost 2 sampleSettings [] sampleSchedulerState).2.renderers 3 =
      lookupAssoc sampleSchedulerState.renderers 3 ∧
    (getOrCreateRenderer 2 (handleSettingsPost 2 sampleSettings [] sampleSchedulerState).2).1 ≠
      0 := by
  have h := claimC1_settings_update_clears_tenant_caches 2 sampleSettings []
    sampleSchedulerState (by
      intro rid hr
      rw [show lookupAssoc sampleSchedulerState.renderers 2 = some 0 from rfl] at hr
      injection hr with hr'
      rw [show sampleSchedulerState.nextRendererID = 2 from rfl]
      omega)
  exact ⟨h.1, h.2.1 0 rfl, h.2.2.2.1 3 (by omega), h.2.2.2.2.2.1 0 rfl⟩

/-- C8 counterexample: `updateScheduleDirect` does not check the affected-row
count — updating a schedule that does not exist (empty table) returns
success, not an error; and on success the submitted `ownerUserID` (9 in
`sampleSchedule`) is not persisted: the stored row keeps its old value 7,
because `owner_user_id` is not in the `UPDATE`'s `SET` list.  Both facts
contradict the claim as stated. -/
theorem claimC8_counterexample :
    updateScheduleDirect 1000 [] sampleSchedule = .ok [] ∧
    updateScheduleDirect 1000 [{ sampleSchedule with ownerUserID := 7 }] sampleSchedule =
      .ok [{ sampleSchedule with ownerUserID := 7, updatedAt := 1000 }] ∧
    sampleSchedule.ownerUserID = 9 := by
  exact ⟨rfl, rfl, rfl⟩

/-- C8 amended: `updateScheduleDirect` overwrites, in the row(s) matching
(org, id), every column of the `UPDATE`'s `SET` list with the submitted
values and stamps `updated_at` with the write time, while `id`, `org_id`,
`owner_user_id` and `created_at` keep their stored values; rows of other
(org, id) pairs are untouched; and the call returns success even when no
matching row exists (zero affected rows, no "schedule vanished" error). -/
theorem claimC8_update_schedule_overwrite (now : Nat) (db : List Schedule) (s : Schedule) :
    (∃ db', updateScheduleDirect now db s = .ok db') ∧
    (∀ db', updateScheduleDirect now db s = .ok db' →
      db'.length = db.length ∧
      ∀ (i : Nat) (hi : i < db.length) (hi' : i < db'.length),
        ((db[i].id = s.id ∧ db[i].orgID = s.orgID) →
          db'[i] =
            { id := db[i].id, orgID := db[i].orgID,
              name := s.name, dashboardUID := s.dashboardUID,
              dashboardTitle := s.dashboardTitle, panelIDs := s.panelIDs,
              rangeFrom := s.rangeFrom, rangeTo := s.rangeTo,
              intervalType := s.intervalType, cronExpr := s.cronExpr,
              timezone := s.timezone, variableOverrides := s.variableOverrides,
              recipients := s.recipients, emailSubject := s.emailSubject,
              emailBody := s.emailBody, templateID := s.templateID,
              enabled := s.enabled, lastRunAt := s.lastRunAt,
              nextRunAt := s.nextRunAt,
              ownerUserID := db[i].ownerUserID,
              createdAt := db[i].createdAt, updatedAt := now }) ∧
        (¬(db[i].id = s.id ∧ db[i].orgID = s.orgID) → db'[i] = db[i])) := by
  constructor
  · exact ⟨_, rfl⟩
  · intro db' h
    have hdb' : db' = db.map fun r =>
        if r.id == s.id && r.orgID == s.orgID then overwriteScheduleRow now r s else r := by
      simpa [updateScheduleDirect] using h.symm
    subst hdb'
    refine ⟨by simp, ?_⟩
    intro i hi hi'
    constructor
    · intro ⟨hid, horg⟩
      rw [List.getElem_map]
      rw [if_pos (by simp [hid, horg])]
      simp [overwriteScheduleRow]
    · intro hne
      rw [List.getElem_map]
      rw [if_neg (by simpa [Bool.and_eq_true, beq_iff_eq] using hne)]

/-- Witness for `claimC8_update_schedule_overwrite`: updating the one-row
table keeps its length, and the stored row's `owner_user_id` is unchanged by
the write. -/
theorem claimC8_update_schedule_overwrite_witness :
    ([{ sampleSchedule with name := "renamed", updatedAt := 1000 }] : List Schedule).length =
      ([sampleSchedule] : List Schedule).length ∧
    ([{ sampleSchedule with name := "renamed", updatedAt := 1000 }] :
        List Schedule)[0].ownerUserID = sampleSchedule.ownerUserID := by
  have h := claimC8_update_schedule_overwrite 1000 [sampleSchedule]
    { sampleSchedule with name := "renamed" }
  have h2 := h.2 [{ sampleSchedule with name := "renamed", updatedAt := 1000 }] (by rfl)
  have hget := (h2.2 0 Nat.zero_lt_one Nat.zero_lt_one).1 ⟨rfl, rfl⟩
  refine ⟨h2.1, ?_⟩
  rw [hget]
  rfl

/-- C10: `ListRuns` returns at most 50 rows, ordered by start time descending
(most recent first); every returned row comes from a stored run of the given
schedule and org with the artifact payload omitted; and a stored matching
run that is not returned is no newer than anything returned — only runs
older than the 50 most recent are dropped, while they remain in the table
(the query reads, never deletes). -/
theorem claimC10_list_runs (orgID scheduleID : Nat) (db : List Run) :
    (ListRuns orgID scheduleID db).length ≤ 50 ∧
    ((ListRuns orgID scheduleID db).Pairwise fun a b => b.startedAt ≤ a.startedAt) ∧
    (∀ r ∈ ListRuns orgID scheduleID db, r.artifactData = [] ∧
      ∃ r0 ∈ db, r0.scheduleID = scheduleID ∧ r0.orgID = orgID ∧
        r = { r0 with artifactData := [] }) ∧
    (∀ r0 ∈ db, r0.scheduleID = scheduleID → r0.orgID = orgID →
      { r0 with artifactData := [] } ∉ ListRuns orgID scheduleID db →
      ∀ x ∈ ListRuns orgID scheduleID db, r0.startedAt ≤ x.startedAt) := by
  have hsorted := pairwise_sortByLe (fun a b : Run => Nat.ble b.startedAt a.startedAt)
    (fun a b => by rcases Nat.le_total b.startedAt a.startedAt with h | h <;>
      simp [Nat.ble_eq, h])
    (fun a b c h1 h2 => by
      rw [Nat.ble_eq] at h1 h2 ⊢
      omega)
    (db.filter fun r => r.scheduleID == scheduleID && r.orgID == orgID)
  refine ⟨?_, ?_, ?_, ?_⟩
  · rw [ListRuns, List.length_map, List.length_take]
    exact Nat.min_le_left _ _
  · rw [ListRuns]
    rw [List.pairwise_map]
    have htake := hsorted.sublist (List.take_sublist 50 _)
    exact htake.imp fun h => by simpa [Nat.ble_eq] using h
  · intro r hr
    rw [ListRuns, List.mem_map] at hr
    rcases hr with ⟨x, hx, rfl⟩
    have hx' : x ∈ db.filter fun r => r.scheduleID == scheduleID && r.orgID == orgID :=
      (mem_sortByLe _ _ _).mp (List.mem_of_mem_take hx)
    rw [List.mem_filter, Bool.and_eq_true, beq_iff_eq, beq_iff_eq] at hx'
    exact ⟨rfl, x, hx'.1, hx'.2.1, hx'.2.2, rfl⟩
  · intro r0 h0 hsched horg hnotin x hx
    have hmem : r0 ∈ sortByLe (fun a b : Run => Nat.ble b.startedAt a.startedAt)
        (db.filter fun r => r.scheduleID == scheduleID && r.orgID == orgID) := by
      rw [mem_sortByLe, List.mem_filter]
      exact ⟨h0, by simp [hsched, horg]⟩
    have hnottake : r0 ∉ (sortByLe (fun a b : Run => Nat.ble b.startedAt a.startedAt)
        (db.filter fun r => r.scheduleID == scheduleID && r.orgID == orgID)).take 50 := by
      intro hcon
      exact hnotin (by rw [ListRuns, List.mem_map]; exact ⟨r0, hcon, rfl⟩)
    have happ : ((sortByLe (fun a b : Run => Nat.ble b.startedAt a.startedAt)
          (db.filter fun r => r.scheduleID == scheduleID && r.orgID == orgID)).take 50 ++
        (sortByLe (fun a b : Run => Nat.ble b.startedAt a.startedAt)
          (db.filter fun r => r.scheduleID == scheduleID && r.orgID == orgID)).drop 50) =
        sortByLe (fun a b : Run => Nat.ble b.startedAt a.startedAt)
          (db.filter fun r => r.scheduleID == scheduleID && r.orgID == orgID) :=
      List.take_append_drop 50 _
    have hdrop : r0 ∈ (sortByLe (fun a b : Run => Nat.ble b.startedAt a.startedAt)
        (db.filter fun r => r.scheduleID == scheduleID && r.orgID == orgID)).drop 50 := by
      rcases List.mem_append.mp (happ ▸ hmem) with h | h
      · exact absurd h hnottake
      · exact h
    rw [ListRuns, List.mem_map] at hx
    rcases hx with ⟨x', hx', rfl⟩
    have hcross := (List.pairwise_append.mp (happ ▸ hsorted)).2.2 x' hx' r0 hdrop
    simpa [Nat.ble_eq] using hcross

/-- Witness for `claimC10_list_runs`: with 51 stored runs of the schedule,
the result caps at 50 and the excluded oldest run (start time 0) is no newer
than anything returned. -/
theorem claimC10_list_runs_witness :
    (ListRuns 2 5 manyRuns).length ≤ 50 ∧
    (∀ x ∈ ListRuns 2 5 manyRuns,
      ({ sampleRun with id := 0, startedAt := 0 } : Run).startedAt ≤ x.startedAt) := by
  have h := claimC10_list_runs 2 5 manyRuns
  exact ⟨h.1, h.2.2.2 { sampleRun with id := 0, startedAt := 0 } (by decide) rfl rfl
    (by decide)⟩

/-- C6: in a successful attempt the artifact bytes, byte size and checksum
are written through `UpdateRun` as the very first store event — before any
email step; when SMTP is unconfigured the attempt returns success with
`email_sent=false` and the explicit `SMTP not configured` marker in
`email_error` and no email is attempted; when delivery fails the attempt
still returns success with `email_sent=false` and the delivery error in
`email_error`; in both cases the run finalises `completed`, not `failed`. -/
theorem claimC6_artifact_persisted_before_email (schedule : Schedule) (run : Run)
    (env : AttemptEnv) (settings : Settings) (data : List Nat) (tfin : Nat)
    (hs : env.settingsResult = .ok (some settings))
    (hr : env.rendererResult = .ok ())
    (hd : env.renderResult = .ok data) :
    ((executeScheduleOnce schedule run env).2.2.head? =
      some (.updateRun
        { run with
          renderedPages := 1, bytes := data.length,
          checksum := sha256Model data, artifactData := data })) ∧
    (settings.smtpConfig = none →
      (executeScheduleOnce schedule run env).1 = .ok () ∧
      (executeScheduleOnce schedule run env).2.1.emailSent = false ∧
      (executeScheduleOnce schedule run env).2.1.emailError = "SMTP not configured" ∧
      (∀ n, StoreEvent.sendEmail n ∉ (executeScheduleOnce schedule run env).2.2) ∧
      (finalizeRun (executeScheduleOnce schedule run env).2.1 tfin
          (executeScheduleOnce schedule run env).1).status = "completed") ∧
    (∀ cfg e, settings.smtpConfig = some cfg → env.emailResult = .error e →
      (executeScheduleOnce schedule run env).1 = .ok () ∧
      (executeScheduleOnce schedule run env).2.1.emailSent = false ∧
      (executeScheduleOnce schedule run env).2.1.emailError = e ∧
      (finalizeRun (executeScheduleOnce schedule run env).2.1 tfin
          (executeScheduleOnce schedule run env).1).status = "completed") := by
  refine ⟨?_, ?_, ?_⟩
  · cases hc : settings.smtpConfig with
    | none => simp [executeScheduleOnce, hs, hr, hd, hc]
    | some cfg =>
      cases he : env.emailResult with
      | ok _ => simp [executeScheduleOnce, hs, hr, hd, hc, he]
      | error e => simp [executeScheduleOnce, hs, hr, hd, hc, he]
  · intro hc
    simp [executeScheduleOnce, hs, hr, hd, hc, finalizeRun]
  · intro cfg e hc he
    simp [executeScheduleOnce, hs, hr, hd, hc, he, finalizeRun]

/-- Witness for `claimC6_artifact_persisted_before_email`: concrete attempt
with three artifact bytes, no SMTP configuration. -/
theorem claimC6_artifact_persisted_before_email_witness :
    (executeScheduleOnce sampleSchedule sampleRun
        ⟨.ok (some sampleSettings), .ok (), .ok [1, 2, 3], .ok ()⟩).2.2.head? =
      some (.updateRun
        { sampleRun with
          renderedPages := 1, bytes := 3,
          checksum := sha256Model [1, 2, 3], artifactData := [1, 2, 3] }) ∧
    (executeScheduleOnce sampleSchedule sampleRun
        ⟨.ok (some sampleSettings), .ok (), .ok [1, 2, 3], .ok ()⟩).2.1.emailError =
      "SMTP not configured" := by
  have h := claimC6_artifact_persisted_before_email sampleSchedule sampleRun
    ⟨.ok (some sampleSettings), .ok (), .ok [1, 2, 3], .ok ()⟩ sampleSettings [1, 2, 3] 0
    rfl rfl rfl
  exact ⟨h.1, (h.2.1 rfl).2.2.1⟩

/-- C7 counterexample: a missing tenant settings row makes the attempt fail
with the `no settings configured` error, and `executeWithRetry` re-runs that
attempt — all three attempt indices 0, 1, 2 execute, so the configuration
error is retried rather than being fatal to the job after one attempt. -/
theorem claimC7_counterexample :
    (executeScheduleOnce sampleSchedule sampleRun noSettingsEnv).1 =
      .error "no settings configured for org 2" ∧
    (executeWithRetry noSettingsAttempt 3).attemptsRun = [0, 1, 2] := by
  exact ⟨rfl, rfl⟩

/-- C7 amended: `executeWithRetry` has no error classification — a
configuration error (missing tenant settings) is retried like any other
failure: every attempt in the budget of 3 runs and fails with the same
`no settings configured` error, and the job then fails with that error as
the last error text. -/
theorem claimC7_config_error_retried (schedule : Schedule) (run : Run)
    (envs : Nat → AttemptEnv) (hset : ∀ i, (envs i).settingsResult = .ok none) :
    executeWithRetry (fun i => (executeScheduleOnce schedule run (envs i)).1) 3 =
      ⟨.error ("all 3 attempts failed: " ++
        ("no settings configured for org " ++ toString schedule.orgID)),
       [0, 1, 2], [1, 4]⟩ := by
  have hf : ∀ i, (executeScheduleOnce schedule run (envs i)).1 =
      .error ("no settings configured for org " ++ toString schedule.orgID) := by
    intro i
    simp [executeScheduleOnce, hset i]
  simp [executeWithRetry, retryAux, hf]
  rfl

/-- Witness for `claimC7_config_error_retried`: the concrete no-settings
tenant runs attempts 0, 1, 2 and fails with the configuration error. -/
theorem claimC7_config_error_retried_witness :
    executeWithRetry noSettingsAttempt 3 =
      ⟨.error ("all 3 attempts failed: " ++
        ("no settings configured for org " ++ toString sampleSchedule.orgID)),
       [0, 1, 2], [1, 4]⟩ :=
  claimC7_config_error_retried sampleSchedule sampleRun (fun _ => noSettingsEnv)
    (fun _ => rfl)

/-- C2: every mutating store operation goes through `enqueue`; if the queue's
context is already cancelled while the operation is pending submission, the
call returns the cancellation outcome instead of waiting; a successful
submission puts the operation into the buffer; and the writer goroutine's
shutdown drain executes every operation that was accepted into the buffer
before shutdown, in submission order, leaving the buffer empty — no accepted
write is dropped. -/
theorem claimC2_write_queue_cancellation_and_drain (q : WriteQueue) (op : WriteOp) :
    (q.cancelled = true → (enqueueOp q op).1 = .contextCanceled) ∧
    ((enqueueOp q op).1 = .queued → op ∈ (enqueueOp q op).2.buffer) ∧
    (processShutdownDrain q).executed = q.executed ++ q.buffer ∧
    (processShutdownDrain q).buffer = [] ∧
    (∀ o ∈ q.buffer, o ∈ (processShutdownDrain q).executed) := by
  refine ⟨?_, ?_, ?_, rfl, ?_⟩
  · intro hc
    simp [enqueueOp, hc]
  · intro hq
    by_cases hc : q.cancelled = true
    · simp [enqueueOp, hc] at hq
    · by_cases hlen : q.buffer.length < queueCapacity
      · simp [enqueueOp, hc, hlen]
      · simp [enqueueOp, hc, hlen] at hq
  · simp [processShutdownDrain, drainLoop_eq]
  · intro o ho
    simp [processShutdownDrain, drainLoop_eq]
    exact Or.inr ho

/-- Witness for `claimC2_write_queue_cancellation_and_drain`: a cancelled
queue rejects an `UpsertSettings` submission with the cancellation outcome,
and the two operations already buffered at shutdown are both executed by the
drain. -/
theorem claimC2_write_queue_cancellation_and_drain_witness :
    (enqueueOp ⟨[], true, []⟩ ⟨.upsertSettings, 7⟩).1 = .contextCanceled ∧
    (processShutdownDrain
        ⟨[⟨.createRun, 1⟩, ⟨.updateSchedule, 2⟩], true, []⟩).executed =
      [⟨.createRun, 1⟩, ⟨.updateSchedule, 2⟩] := by
  have h1 := (claimC2_write_queue_cancellation_and_drain ⟨[], true, []⟩
    ⟨.upsertSettings, 7⟩).1 rfl
  have h2 := (claimC2_write_queue_cancellation_and_drain
    ⟨[⟨.createRun, 1⟩, ⟨.updateSchedule, 2⟩], true, []⟩ ⟨.upsertSettings, 7⟩).2.2.1
  exact ⟨h1, h2⟩

theorem validateEmailList_ok_iff (allowedDomains : List String) (l : List String) :
    validateEmailList allowedDomains l = .ok () ↔
      ∀ e ∈ l, recipientEmailOk allowedDomains e = true := by
  induction l with
  | nil => simp [validateEmailList]
  | cons e rest ih =>
    simp only [validateEmailList, List.mem_cons, forall_eq_or_imp]
    by_cases h1 : trimChars e.data = []
    · simp [h1, ih, recipientEmailOk]
    · by_cases h2 : extractDomain (trimChars e.data) = []
      · simp [h1, h2, recipientEmailOk]
      · by_cases h3 : isDomainAllowed (extractDomain (trimChars e.data)) allowedDomains = true
        · simp [h1, h2, h3, ih, recipientEmailOk]
        · simp [h1, h2, Bool.eq_false_iff.mpr h3, recipientEmailOk]

/-- C9: with an empty allowed-domains list every recipient passes; with
`allowed_domains=["*.example.com"]` recipients at `example.com`,
`sub.example.com` and `a.b.example.com` pass while `example.org` is rejected
with an error; the check covers the `to`, `cc` and `bcc` lists (an address is
checked no matter which list it sits in, shown both by the general
characterisation over `to ++ cc ++ bcc` and by rejected `cc`/`bcc` instances);
domain comparison is case-insensitive (mixed-case address and mixed-case
whitelist entry both pass). -/
theorem claimC9_recipient_domain_whitelist :
    (∀ r : Recipients, ValidateRecipientDomains r [] = .ok ()) ∧
    ValidateRecipientDomains ⟨["user@example.com"], [], []⟩ ["*.example.com"] = .ok () ∧
    ValidateRecipientDomains ⟨["u@sub.example.com"], [], []⟩ ["*.example.com"] = .ok () ∧
    ValidateRecipientDomains ⟨["u@a.b.example.com"], [], []⟩ ["*.example.com"] = .ok () ∧
    ValidateRecipientDomains ⟨["u@example.org"], [], []⟩ ["*.example.com"] =
      .error "email domain example.org is not allowed (email: u@example.org)" ∧
    (∀ (a0 : String) (as rto rcc rbcc : List String),
      ValidateRecipientDomains ⟨rto, rcc, rbcc⟩ (a0 :: as) = .ok () ↔
        ∀ e ∈ rto ++ rcc ++ rbcc, recipientEmailOk (a0 :: as) e = true) ∧
    (ValidateRecipientDomains ⟨[], ["u@example.org"], []⟩ ["*.example.com"]).isOk = false ∧
    (ValidateRecipientDomains ⟨[], [], ["u@example.org"]⟩ ["*.example.com"]).isOk = false ∧
    ValidateRecipientDomains ⟨["User@Example.COM"], [], []⟩ ["*.example.com"] = .ok () ∧
    ValidateRecipientDomains ⟨["user@example.com"], [], []⟩ ["*.EXAMPLE.com"] = .ok () := by
  refine ⟨fun r => rfl, rfl, rfl, rfl, rfl, ?_, rfl, rfl, rfl, rfl⟩
  intro a0 as rto rcc rbcc
  simp [ValidateRecipientDomains, validateEmailList_ok_iff]

end ScheduledReports
